import Mathlib

/-!
Verification of the training-orchestration script `train.py` of TextStyleGan.

The script is glue over a deep-learning framework: its own content is loss
composition, iteration bookkeeping, regularization scheduling, EMA weight
tracking and checkpoint/sample cadence.  We embed exactly that structure:

* tensors are flattened lists of rationals (`Tensor`), a batch of per-sample
  gradients is a `List Tensor`;
* the framework-owned collaborators (softplus, BCE, the generator,
  discriminator and encoder forward passes, autograd, the Adam parameter
  update, the augmentation pipeline) are oracle functions collected in a
  `Framework` record; the script composes them, and the theorems hold for
  every choice of oracles;
* module parameters are named rationals carrying their `requires_grad` flag;
* one iteration of the training loop (`train.py` lines 214-450) is the
  function `trainStep`, split into the phases that the source lays out in
  order; Python's unbound-local and key errors become the `Except PyErr`
  monad; `backward`/`optimizer.step()` calls and file writes are recorded as
  an event trace.
-/

/-- A tensor, flattened to its list of entries. -/
abbrev Tensor := List ℚ

/-- `t.mean()` of a flattened tensor. -/
def mean (t : Tensor) : ℚ := t.sum / (t.length : ℚ)

/-- `d_logistic_loss` (train.py lines 79-83):
`F.softplus(-real_pred).mean() + F.softplus(fake_pred).mean()`.
`softplus` itself is framework code and enters as the oracle `sp`. -/
def d_logistic_loss (sp : ℚ → ℚ) (real_pred fake_pred : Tensor) : ℚ :=
  mean (real_pred.map fun x => sp (-x)) + mean (fake_pred.map fun x => sp x)

/-- `d_r1_loss` (train.py lines 86-93) applied to the per-sample gradients
`grad_real` that `autograd.grad` returns:
`grad_real.pow(2).reshape(B, -1).sum(1).mean()`. -/
def d_r1_loss (grad_real : List Tensor) : ℚ :=
  mean (grad_real.map fun g => (g.map fun x => x ^ 2).sum)

/-- `g_nonsaturating_loss` (train.py lines 96-99): `F.softplus(-fake_pred).mean()`. -/
def g_nonsaturating_loss (sp : ℚ → ℚ) (fake_pred : Tensor) : ℚ :=
  mean (fake_pred.map fun x => sp (-x))

/-- A module parameter: its dotted name, its value (`.data`) and its
`requires_grad` flag. -/
structure Param where
  name : String
  data : ℚ
  requires_grad : Bool
deriving DecidableEq, Inhabited

/-- A module: its named parameters and its train/eval mode flag. -/
structure NetState where
  params : List Param
  training : Bool
deriving DecidableEq, Inhabited

/-- `requires_grad(model, flag)` (train.py lines 60-62): sets the flag on
every parameter of the model. -/
def requires_grad (model : NetState) (flag : Bool) : NetState :=
  { model with params := model.params.map fun p => { p with requires_grad := flag } }

/-- First value bound to a parameter name, as `dict(named_parameters())[k].data`. -/
def lookupData : List Param → String → Option ℚ
  | [], _ => none
  | p :: rest, k => if p.name = k then some p.data else lookupData rest k

/-- `accumulate(model1, model2, decay)` (train.py lines 65-70):
for every key `k` of `par1`, `par1[k].data.mul_(decay).add_(par2[k].data,
alpha=1-decay)`; a key of `par1` missing from `par2` raises `KeyError`,
modelled by `none`. -/
def accumulate : List Param → List Param → ℚ → Option (List Param)
  | [], _, _ => some []
  | p :: rest, par2, decay =>
    match lookupData par2 p.name, accumulate rest par2 decay with
    | some v2, some rest' =>
      some ({ p with data := decay * p.data + (1 - decay) * v2 } :: rest')
    | _, _ => none

/-- `optimizer.step()` for an optimizer that was constructed over the
parameters named in `keys` (train.py lines 667-676): the framework's update
rule `upd` (Adam) is applied to exactly the registered parameters.  The
optimizer holds references only to the parameter objects it was constructed
with, so no other parameter can change. -/
def optimStep (keys : List String) (upd : String → ℚ → ℚ) (ps : List Param) : List Param :=
  ps.map fun p => if p.name ∈ keys then { p with data := upd p.name p.data } else p

/-- The `requires_grad` flags of a module's parameters, in order. -/
def flagsOf (n : NetState) : List Bool := n.params.map Param.requires_grad

/-- `str.zfill(w)`: pad on the left with '0' to length at least `w`
(the argument is a nonnegative decimal numeral here). -/
def zfill (w : Nat) (s : String) : String :=
  if w ≤ s.length then s else String.mk (List.replicate (w - s.length) '0') ++ s

/-- `f"sample/{str(i).zfill(6)}.png"` (train.py line 432). -/
def samplePath (i : Nat) : String := "sample/" ++ zfill 6 (Nat.repr i) ++ ".png"

/-- `f"checkpoint/{str(i).zfill(6)}.pt"` (train.py line 449). -/
def ckptPath (i : Nat) : String := "checkpoint/" ++ zfill 6 (Nat.repr i) ++ ".pt"

/-- The keys of the dictionary saved by `torch.save` (train.py lines 439-450). -/
def ckptKeys : List String := ["g", "d", "g_ema", "g_optim", "d_optim", "args", "ada_aug_p"]

/-- `match_labels = Variable(torch.LongTensor(range(cfg.TRAIN.BATCH_SIZE)))`
(train.py line 270). -/
def matchLabels (bs : Nat) : Tensor := (List.range bs).map fun n => (n : ℚ)

/-- The Python exceptions the script can meet.  Referencing a never-assigned
local raises `UnboundLocalError`, a subclass of `NameError`. -/
inductive PyErr where
  | nameError
  | keyError
  | valueError
  | importError
deriving DecidableEq, Inhabited

/-- Reading a Python local that may not have been assigned yet. -/
def force {α : Type} (o : Option α) : Except PyErr α :=
  match o with
  | some a => .ok a
  | none => .error .nameError

/-- The framework-owned collaborators, as oracles.  `train.py` only composes
them, so every theorem below is quantified over this record. -/
structure Framework where
  /-- `F.softplus`. -/
  softplus : ℚ → ℚ
  /-- `nn.BCELoss()(input, target)`. -/
  bce : Tensor → Tensor → ℚ
  /-- The text-encoder forward pass: captions to `(words_embs, sent_emb)`
  (both the rnn and the transformer branch of lines 231-240 produce this
  pair; `.detach()` does not change the value). -/
  text_encoder : Tensor → Tensor × Tensor
  /-- The generator forward pass `generator(noise)`: its parameters and the
  list of style noises to the generated image (the second component of the
  Python return value is dropped at every call site modelled here). -/
  generator : List Param → List Tensor → Tensor
  /-- The discriminator forward pass `discriminator(img, sent_emb)`:
  `(pred, logits)`. -/
  discriminator : List Param → Tensor → Tensor → Tensor × Tensor
  /-- The image-encoder forward pass: `(region_features, cnn_code)`. -/
  image_encoder : List Param → Tensor → Tensor × Tensor
  /-- `sent_loss(cnn_code, sent_emb, match_labels, class_ids, batch_size)`
  from `miscc.losses`: returns `(s_loss0, s_loss1)`. -/
  sent_lossF : Tensor → Tensor → Tensor → Tensor → Nat → ℚ × ℚ
  /-- `augment(img, ada_aug_p)` from `non_leaking` (first component). -/
  augmentF : Tensor → ℚ → Tensor
  /-- `ada_augment.tune(real_pred)`: the new `ada_aug_p`. -/
  adaTune : Tensor → ℚ → ℚ
  /-- `autograd.grad(outputs=real_pred.sum(), inputs=real_img)`: the
  per-sample gradients of the summed predictions. -/
  gradOracle : Tensor → Tensor → List Tensor

/-- The arguments and config values the loop reads. -/
structure TrainConfig where
  /-- `args.iter`. -/
  iter : Nat
  /-- `args.start_iter`. -/
  start_iter : Nat
  /-- `args.d_reg_every` (default 16, positive). -/
  d_reg_every : Nat
  /-- `args.r1`. -/
  r1 : ℚ
  /-- `args.augment`. -/
  augment : Bool
  /-- `args.augment_p`. -/
  augment_p : ℚ
  /-- `get_rank()` of this process. -/
  rank : Nat
  /-- The `conditioned` argument of `train`. -/
  conditioned : Bool
  /-- `cfg.TRAIN.BATCH_SIZE`. -/
  batchSize : Nat
  /-- `cfg.TRAIN.SMOOTH.LAMBDA`. -/
  lambda : ℚ
  /-- `accum = 0.5 ** (32 / (10 * 1000))` (train.py line 180), as a value. -/
  accum : ℚ
deriving Inhabited

/-- The mutable state the loop body threads: the five modules, the parameter
names registered with each optimizer, and the Python locals that survive
across iterations.  A local that may be unassigned is an `Option`. -/
structure TrainState where
  gen : NetState
  disc : NetState
  gEma : NetState
  textEnc : NetState
  imageEnc : NetState
  /-- names registered with `g_optim` at construction. -/
  gKeys : List String
  /-- names registered with `d_optim` at construction. -/
  dKeys : List String
  /-- `r1_loss` (initialized to `torch.tensor(0.0)` at line 165). -/
  r1_loss : ℚ
  /-- `ada_aug_p`. -/
  ada_aug_p : ℚ
  /-- the local `sent_emb`, assigned only under `if conditioned:`. -/
  sent_emb : Option Tensor
  /-- the local `words_embs`, assigned only under `if conditioned:`. -/
  words_embs : Option Tensor
  /-- `sample_z` (line 190). -/
  sample_z : Tensor
  /-- the local `sample_sent_emb`, assigned only under `if conditioned:`. -/
  sample_sent_emb : Option Tensor
deriving DecidableEq, Inhabited

/-- The per-iteration inputs the loop body consumes: the data batch from
`prepare_data(next(loader))` and the random/Adam-state choices the framework
makes during this iteration. -/
structure IterInput where
  real_img : Tensor
  captions : Tensor
  /-- `real_img.shape[0]`. -/
  batch : Nat
  class_ids : Tensor
  /-- the `mixing_noise` draw of line 249 (always a list/tuple). -/
  noiseD : List Tensor
  /-- the `mixing_noise` draw of line 317. -/
  noiseG : List Tensor
  /-- the Adam update applied by the first `d_optim.step()` (line 287). -/
  dUpd : String → ℚ → ℚ
  /-- the Adam update applied by the regularization `d_optim.step()` (line 310). -/
  dUpdReg : String → ℚ → ℚ
  /-- the Adam update applied by `g_optim.step()` (line 350). -/
  gUpd : String → ℚ → ℚ

/-- The observable actions of one loop body, in program order: every
`backward`/`optimizer.step()` pair (with the `requires_grad` flags of the
generator and the discriminator at that moment) and every file write. -/
inductive Event where
  | backwardD (real_pred fake_pred fake_logits real_logits : Tensor) (d_loss : ℚ)
      (genFlags discFlags : List Bool)
  | stepD (genFlags discFlags : List Bool)
  | r1Reg (real_pred : Tensor) (r1_val backLoss : ℚ)
  | stepDReg (genFlags discFlags : List Bool)
  | backwardG (fake_img fake_pred se : Tensor) (g_loss : ℚ) (genFlags discFlags : List Bool)
  | stepG (genFlags discFlags : List Bool)
  | saveImage (path : String) (img : Tensor)
  | saveCkpt (path : String) (keys : List String)
deriving DecidableEq, Inhabited

/-- An on-disk write: a sample png or a checkpoint with its dictionary keys. -/
inductive FileWrite where
  | png (path : String)
  | pt (path : String) (keys : List String)
deriving DecidableEq

/-- The file writes among a trace of events. -/
def writesOf (evs : List Event) : List FileWrite :=
  evs.filterMap fun e =>
    match e with
    | .saveImage p _ => some (.png p)
    | .saveCkpt p ks => some (.pt p ks)
    | _ => none

/-- The R1 regularization backward passes recorded in a trace:
`(real_pred, r1_loss, backpropagated loss)`. -/
def r1Events (evs : List Event) : List (Tensor × ℚ × ℚ) :=
  evs.filterMap fun e =>
    match e with
    | .r1Reg p a b => some (p, a, b)
    | _ => none

/-- How many regularization `d_optim.step()` calls a trace records. -/
def stepDRegCount (evs : List Event) : Nat :=
  (evs.filter fun e =>
    match e with
    | .stepDReg _ _ => true
    | _ => false).length

/-- The discriminator loss expression of train.py lines 275-279 exactly as
Python parses it: the conditional expression binds looser than `+`, so the
`if conditioned ... else 0` covers the whole sum
`d_logistic_loss(real_pred, fake_pred) + (BCE(fake) + BCE(real))`. -/
def d_loss_expr (conditioned : Bool) (sp : ℚ → ℚ) (bce : Tensor → Tensor → ℚ)
    (real_pred fake_pred fake_logits real_logits real_labels fake_labels : Tensor) : ℚ :=
  if conditioned then
    d_logistic_loss sp real_pred fake_pred
      + (bce fake_logits fake_labels + bce real_logits real_labels)
  else 0

/-- Lines 230-247: the per-iteration text encoding, guarded by
`if conditioned:` (both the rnn and the transformer branch bind
`(words_embs, sent_emb)`; `.detach()` keeps the value), followed by the
`requires_grad` assignments of lines 246-247.  The `mask` computed on lines
241-244 is used nowhere later in the loop and is not modelled. -/
def encodeAndFlags (cfg : TrainConfig) (fw : Framework) (st : TrainState)
    (inp : IterInput) : TrainState :=
  let st1 :=
    if cfg.conditioned then
      let we_se := fw.text_encoder inp.captions
      { st with words_embs := some we_se.1, sent_emb := some we_se.2 }
    else st
  { st1 with gen := requires_grad st1.gen false, disc := requires_grad st1.disc true }

/-- Lines 249-253 of the discriminator phase: the `mixing_noise` draw,
concatenated with `sent_emb` when conditioned (`mixing_noise` always returns
a tuple or a list, so of lines 250-253 the list branch is the live one). -/
def dNoise (cfg : TrainConfig) (inp : IterInput) (se : Tensor) : List Tensor :=
  if cfg.conditioned then inp.noiseD.map (fun ns => ns ++ se) else inp.noiseD

/-- Lines 255-259: `fake_img, _ = generator(noise)`, then augmented when
`args.augment`. -/
def dFakeImg (cfg : TrainConfig) (fw : Framework) (st : TrainState) (inp : IterInput)
    (se : Tensor) : Tensor :=
  let fake_img := fw.generator st.gen.params (dNoise cfg inp se)
  if cfg.augment then fw.augmentF fake_img st.ada_aug_p else fake_img

/-- Lines 257-262: `real_img_aug`. -/
def dRealImgAug (cfg : TrainConfig) (fw : Framework) (st : TrainState)
    (inp : IterInput) : Tensor :=
  if cfg.augment then fw.augmentF inp.real_img st.ada_aug_p else inp.real_img

/-- Line 273: `fake_pred, fake_logits = discriminator(fake_img, sent_emb)`. -/
def dFakeOut (cfg : TrainConfig) (fw : Framework) (st : TrainState) (inp : IterInput)
    (se : Tensor) : Tensor × Tensor :=
  fw.discriminator st.disc.params (dFakeImg cfg fw st inp se) se

/-- Line 274: `real_pred, real_logits = discriminator(real_img_aug, sent_emb)`. -/
def dRealOut (cfg : TrainConfig) (fw : Framework) (st : TrainState) (inp : IterInput)
    (se : Tensor) : Tensor × Tensor :=
  fw.discriminator st.disc.params (dRealImgAug cfg fw st inp) se

/-- Lines 275-279: the value bound to `d_loss`, with the labels of lines
264-269 (`FloatTensor(batch, 1)` filled with 1 resp. 0). -/
def dLossVal (cfg : TrainConfig) (fw : Framework) (st : TrainState) (inp : IterInput)
    (se : Tensor) : ℚ :=
  d_loss_expr cfg.conditioned fw.softplus fw.bce
    (dRealOut cfg fw st inp se).1 (dFakeOut cfg fw st inp se).1
    (dFakeOut cfg fw st inp se).2 (dRealOut cfg fw st inp se).2
    (List.replicate inp.batch 1) (List.replicate inp.batch 0)

/-- Lines 249-291: the discriminator update.  `se` is the value of the local
`sent_emb` (its binding is checked by the caller). -/
def dPhase (cfg : TrainConfig) (fw : Framework) (st : TrainState) (inp : IterInput)
    (se : Tensor) : TrainState × List Event :=
  -- lines 285-287: discriminator.zero_grad(); d_loss.backward(); d_optim.step()
  let st' := { st with disc := { st.disc with params := optimStep st.dKeys inp.dUpd st.disc.params } }
  -- lines 289-291: adaptive-augmentation tuning
  let st'' :=
    if cfg.augment ∧ cfg.augment_p = 0 then
      { st' with ada_aug_p := fw.adaTune (dRealOut cfg fw st inp se).1 st'.ada_aug_p }
    else st'
  (st'',
   [Event.backwardD (dRealOut cfg fw st inp se).1 (dFakeOut cfg fw st inp se).1
      (dFakeOut cfg fw st inp se).2 (dRealOut cfg fw st inp se).2
      (dLossVal cfg fw st inp se) (flagsOf st.gen) (flagsOf st.disc),
    Event.stepD (flagsOf st.gen) (flagsOf st.disc)])

/-- Lines 298-304 of the R1 branch: `real_pred, _ = discriminator(real_img_aug,
sent_emb)` on the (re-)augmented real image. -/
def regRealPred (cfg : TrainConfig) (fw : Framework) (st : TrainState) (inp : IterInput)
    (se : Tensor) : Tensor :=
  (fw.discriminator st.disc.params (dRealImgAug cfg fw st inp) se).1

/-- Line 305: the new `r1_loss`, `d_r1_loss` of the gradients of
`real_pred.sum()` with respect to `real_img`. -/
def regR1Val (cfg : TrainConfig) (fw : Framework) (st : TrainState) (inp : IterInput)
    (se : Tensor) : ℚ :=
  d_r1_loss (fw.gradOracle (regRealPred cfg fw st inp se) inp.real_img)

/-- Line 308: `(args.r1 / 2 * r1_loss * args.d_reg_every + 0 * real_pred[0])`. -/
def regBackLoss (cfg : TrainConfig) (fw : Framework) (st : TrainState) (inp : IterInput)
    (se : Tensor) : ℚ :=
  cfg.r1 / 2 * regR1Val cfg fw st inp se * (cfg.d_reg_every : ℚ)
    + 0 * (regRealPred cfg fw st inp se).headD 0

/-- Lines 293-312: the R1 regularization, run exactly when
`i % args.d_reg_every == 0`.  Line 296 turns on `real_img.requires_grad`;
the autograd effect that flag enables is what `Framework.gradOracle`
abstracts. -/
def dRegPhase (cfg : TrainConfig) (fw : Framework) (i : Nat) (st : TrainState)
    (inp : IterInput) (se : Tensor) : TrainState × List Event :=
  if i % cfg.d_reg_every = 0 then
    -- lines 304-310
    ({ st with r1_loss := regR1Val cfg fw st inp se,
               disc := { st.disc with params := optimStep st.dKeys inp.dUpdReg st.disc.params } },
     [Event.r1Reg (regRealPred cfg fw st inp se) (regR1Val cfg fw st inp se)
        (regBackLoss cfg fw st inp se),
      Event.stepDReg (flagsOf st.gen) (flagsOf st.disc)])
  else (st, [])

/-- Lines 317-321 of the generator phase: the fresh `mixing_noise` draw,
concatenated with `sent_emb` when conditioned. -/
def gNoise (cfg : TrainConfig) (inp : IterInput) (se : Tensor) : List Tensor :=
  if cfg.conditioned then inp.noiseG.map (fun ns => ns ++ se) else inp.noiseG

/-- Lines 323-326: `fake_img, _ = generator(noise)`, augmented when
`args.augment`. -/
def gFakeImg (cfg : TrainConfig) (fw : Framework) (st : TrainState) (inp : IterInput)
    (se : Tensor) : Tensor :=
  let fake_img0 := fw.generator st.gen.params (gNoise cfg inp se)
  if cfg.augment then fw.augmentF fake_img0 st.ada_aug_p else fake_img0

/-- Line 328: `fake_pred, _ = discriminator(fake_img, sent_emb)`. -/
def gFakePred (cfg : TrainConfig) (fw : Framework) (st : TrainState) (inp : IterInput)
    (se : Tensor) : Tensor :=
  (fw.discriminator st.disc.params (gFakeImg cfg fw st inp se) se).1

/-- Lines 330-343: the value bound to `g_loss`: the nonsaturating loss of
line 330 plus the semantic-alignment term `s_loss = (s_loss0 + s_loss1) *
cfg.TRAIN.SMOOTH.LAMBDA` of lines 333-343, where `(s_loss0, s_loss1) =
sent_loss(cnn_code, sent_emb, match_labels, class_ids, batch_size)` and
`cnn_code` is the image-encoder code of the freshly generated image. -/
def gLossVal (cfg : TrainConfig) (fw : Framework) (st : TrainState) (inp : IterInput)
    (se : Tensor) : ℚ :=
  g_nonsaturating_loss fw.softplus (gFakePred cfg fw st inp se)
    + ((fw.sent_lossF ((fw.image_encoder st.imageEnc.params (gFakeImg cfg fw st inp se)).2)
          se (matchLabels cfg.batchSize) inp.class_ids cfg.batchSize).1
       + (fw.sent_lossF ((fw.image_encoder st.imageEnc.params (gFakeImg cfg fw st inp se)).2)
          se (matchLabels cfg.batchSize) inp.class_ids cfg.batchSize).2) * cfg.lambda

/-- Lines 314-350: the generator update, including the semantic-alignment
term (the path-length regularization of lines 352-384 is commented out in
the source). -/
def gPhase (cfg : TrainConfig) (fw : Framework) (st0 : TrainState) (inp : IterInput)
    (se : Tensor) : TrainState × List Event :=
  -- lines 314-315
  let st := { st0 with gen := requires_grad st0.gen true, disc := requires_grad st0.disc false }
  -- lines 348-350: generator.zero_grad(); g_loss.backward(); g_optim.step()
  ({ st with gen := { st.gen with params := optimStep st.gKeys inp.gUpd st.gen.params } },
   [Event.backwardG (gFakeImg cfg fw st inp se) (gFakePred cfg fw st inp se) se
      (gLossVal cfg fw st inp se) (flagsOf st.gen) (flagsOf st.disc),
    Event.stepG (flagsOf st.gen) (flagsOf st.disc)])

/-- Line 386: `accumulate(g_ema, g_module, accum)`. -/
def emaPhase (cfg : TrainConfig) (st : TrainState) : Option TrainState :=
  (accumulate st.gEma.params st.gen.params cfg.accum).map fun ps =>
    { st with gEma := { st.gEma with params := ps } }

/-- Lines 399-450: everything under `if get_rank() == 0:`.  The progress text
and the wandb logging of lines 400-421 write no files; line 425 puts `g_ema`
in eval mode; the conditional expression of lines 426-427 evaluates
`sample_sent_emb` only when `conditioned` is true. -/
def samplePhase (cfg : TrainConfig) (fw : Framework) (i : Nat) (st : TrainState) :
    Except PyErr (TrainState × List Event) :=
  if cfg.rank = 0 then
    let saveRes : Except PyErr (TrainState × List Event) :=
      if i % 100 = 0 then
        let gEma2 := { st.gEma with training := false }
        let encRes : Except PyErr Tensor :=
          if cfg.conditioned then
            (force st.sample_sent_emb).map fun sse => st.sample_z ++ sse
          else .ok st.sample_z
        match encRes with
        | .error e => .error e
        | .ok enc =>
          -- line 429: `sample, _ = g_ema([sample_encoded])`
          let sample := fw.generator gEma2.params [enc]
          .ok ({ st with gEma := gEma2 }, [Event.saveImage (samplePath i) sample])
      else .ok (st, [])
    saveRes.map fun r =>
      (r.1, r.2 ++ (if i % 10000 = 0 then [Event.saveCkpt (ckptPath i) ckptKeys] else []))
  else .ok (st, [])

/-- One body of the training loop, `train.py` lines 222-450, at counter `i`. -/
def trainStep (cfg : TrainConfig) (fw : Framework) (i : Nat) (st : TrainState)
    (inp : IterInput) : Except PyErr (TrainState × List Event) :=
  let st1 := encodeAndFlags cfg fw st inp
  match st1.sent_emb with
  | none => .error .nameError  -- line 273 reads the never-assigned local `sent_emb`
  | some se =>
    let p2 := dPhase cfg fw st1 inp se
    let p3 := dRegPhase cfg fw i p2.1 inp se
    let p4 := gPhase cfg fw p3.1 inp se
    match emaPhase cfg p4.1 with
    | none => .error .keyError  -- `par2[k]` missing in `accumulate`
    | some st5 =>
      match samplePhase cfg fw i st5 with
      | .error e => .error e
      | .ok r => .ok (r.1, p2.2 ++ p3.2 ++ p4.2 ++ r.2)

/-- The loop driver over the remaining `idx` values (train.py lines 214-220):
`i = idx + args.start_iter`, and `if i > args.iter: break` before any work. -/
def trainLoop (cfg : TrainConfig) (fw : Framework) (inputs : Nat → IterInput) :
    List Nat → TrainState → Except PyErr (TrainState × List Event)
  | [], st => .ok (st, [])
  | idx :: rest, st =>
    let i := idx + cfg.start_iter
    if cfg.iter < i then .ok (st, [])  -- prints "Done!" and breaks
    else
      match trainStep cfg fw i st (inputs idx) with
      | .error e => .error e
      | .ok r =>
        match trainLoop cfg fw inputs rest r.1 with
        | .error e => .error e
        | .ok r2 => .ok (r2.1, r.2 ++ r2.2)

/-- `train` iterates the body over `pbar = range(args.iter)` (line 157). -/
def trainRun (cfg : TrainConfig) (fw : Framework) (inputs : Nat → IterInput)
    (st : TrainState) : Except PyErr (TrainState × List Event) :=
  trainLoop cfg fw inputs (List.range cfg.iter) st

/-- The loop bodies alone, without the break check: for each remaining `idx`
the body runs at counter `idx + args.start_iter` on the batch `inputs idx`,
threading the state and concatenating the traces.  `trainLoop` is proved
below to be exactly this composition over the indices that survive the
break. -/
def trainSteps (cfg : TrainConfig) (fw : Framework) (inputs : Nat → IterInput) :
    List Nat → TrainState → Except PyErr (TrainState × List Event)
  | [], st => .ok (st, [])
  | idx :: rest, st =>
    match trainStep cfg fw (idx + cfg.start_iter) st (inputs idx) with
    | .error e => .error e
    | .ok r =>
      match trainSteps cfg fw inputs rest r.1 with
      | .error e => .error e
      | .ok r2 => .ok (r2.1, r.2 ++ r2.2)

/-- The counters `i` whose loop body runs to completion of the break check:
`range(args.iter)` shifted by `start_iter`, cut at the first `i > args.iter`. -/
def trainIndices (iter start : Nat) : List Nat :=
  ((List.range iter).map fun idx => idx + start).takeWhile fun i => decide (i ≤ iter)

/-- The state at the top of `train` (lines 162-212): `r1_loss` starts at 0
(line 165), `ada_aug_p` at `args.augment_p if args.augment_p > 0 else 0`
(line 181), the locals `sent_emb`/`words_embs` are unassigned, `sample_z` is
the drawn latent (line 190) and `sample_sent_emb` is assigned only under
`if conditioned:` (lines 191-208). -/
def trainInit (cfg : TrainConfig) (fw : Framework)
    (gen disc gEma textEnc imageEnc : NetState) (gKeys dKeys : List String)
    (sample_z sampleCaptions : Tensor) : TrainState :=
  { gen := gen, disc := disc, gEma := gEma, textEnc := textEnc, imageEnc := imageEnc,
    gKeys := gKeys, dKeys := dKeys,
    r1_loss := 0,
    ada_aug_p := if 0 < cfg.augment_p then cfg.augment_p else 0,
    sent_emb := none, words_embs := none,
    sample_z := sample_z,
    sample_sent_emb :=
      if cfg.conditioned then some (fw.text_encoder sampleCaptions).2 else none }

/-- The `__main__` setup the encoders and optimizers get (lines 642-676):
both encoders have every parameter's `requires_grad` set to `False` and are
put in eval mode; `g_optim` is constructed over `generator.parameters()` and
`d_optim` over `discriminator.parameters()`, so neither optimizer registers
an encoder parameter. -/
structure SetupResult where
  text_enc : NetState
  image_enc : NetState
  gKeys : List String
  dKeys : List String

/-- Lines 642-676 of `__main__`. -/
def mainSetup (generator discriminator text_enc0 image_enc0 : NetState) : SetupResult :=
  -- lines 644-647: freeze and eval the text encoder
  let te : NetState :=
    { params := text_enc0.params.map fun p => { p with requires_grad := false },
      training := false }
  -- lines 656-659: freeze and eval the image encoder
  let ie : NetState :=
    { params := image_enc0.params.map fun p => { p with requires_grad := false },
      training := false }
  -- lines 667-676: the optimizers over the generator/discriminator parameters
  { text_enc := te, image_enc := ie,
    gKeys := generator.params.map Param.name,
    dKeys := discriminator.params.map Param.name }

/-- `int(s)` for a decimal numeral; `none` models the `ValueError` that a
non-numeral raises (checkpoint files are named with nonnegative zero-padded
iteration numbers, so the nonnegative case suffices). -/
def pyInt? (s : String) : Option Nat :=
  if s.data ≠ [] ∧ s.data.all Char.isDigit then
    some (s.data.foldl (fun acc c => 10 * acc + (c.toNat - 48)) 0)
  else none

/-- `os.path.basename`: the characters after the last '/'. -/
def basename (s : String) : String :=
  String.mk (s.data.reverse.takeWhile fun c => c ≠ '/').reverse

/-- `os.path.splitext(name)[0]`: drop the extension after the last dot
(the leading-dot special cases do not arise for checkpoint names). -/
def splitextStem (s : String) : String :=
  if '.' ∈ s.data then
    String.mk ((s.data.reverse.dropWhile fun c => c ≠ '.').drop 1).reverse
  else s

/-- Lines 683-688: `args.start_iter = int(os.path.splitext(ckpt_name)[0])`
inside `try ... except ValueError: pass` — a parse failure is swallowed and
`start_iter` keeps its previous value. -/
def startIterFromCkpt (prev : Nat) (ckpt : String) : Except PyErr Nat :=
  match pyInt? (splitextStem (basename ckpt)) with
  | some n => .ok n
  | none => .ok prev

/-- Lines 26-30: `try: import wandb; except ImportError: wandb = None`.
The import either yields the module, raises `ImportError` (caught, leaving
`None`), or raises something else (propagated). -/
def wandbGuard {W : Type} (imp : Except PyErr W) : Except PyErr (Option W) :=
  match imp with
  | .ok w => .ok (some w)
  | .error .importError => .ok none
  | .error e => .error e

/-! ### Basic facts about the building blocks -/

theorem map_rg_const (b : Bool) : ∀ ps : List Param,
    ((ps.map fun p => { p with requires_grad := b }).map Param.requires_grad)
      = List.replicate ps.length b
  | [] => rfl
  | p :: t => by simp [map_rg_const b t, List.replicate_succ]

theorem flagsOf_requires_grad (n : NetState) (b : Bool) :
    flagsOf (requires_grad n b) = List.replicate n.params.length b :=
  map_rg_const b n.params

theorem optimStep_flags (keys : List String) (upd : String → ℚ → ℚ) (ps : List Param) :
    (optimStep keys upd ps).map Param.requires_grad = ps.map Param.requires_grad := by
  simp only [optimStep, List.map_map]
  congr 1
  funext p
  by_cases h : p.name ∈ keys <;> simp [h, Function.comp]

/-- An optimizer step leaves every parameter it did not register untouched. -/
theorem optimStep_not_mem (keys : List String) (upd : String → ℚ → ℚ) (ps : List Param)
    (p : Param) (hp : p ∈ ps) (hk : p.name ∉ keys) : p ∈ optimStep keys upd ps := by
  simp only [optimStep, List.mem_map]
  exact ⟨p, hp, by simp [hk]⟩

/-! ### Shape of the phases -/

theorem encodeAndFlags_eq (cfg : TrainConfig) (fw : Framework) (st : TrainState)
    (inp : IterInput) :
    ∃ S W : Option Tensor,
      encodeAndFlags cfg fw st inp =
        { st with gen := requires_grad st.gen false, disc := requires_grad st.disc true,
                  sent_emb := S, words_embs := W } := by
  unfold encodeAndFlags
  split
  · exact ⟨_, _, rfl⟩
  · exact ⟨st.sent_emb, st.words_embs, rfl⟩

theorem encodeAndFlags_sent_emb (cfg : TrainConfig) (fw : Framework) (st : TrainState)
    (inp : IterInput) :
    (encodeAndFlags cfg fw st inp).sent_emb =
      if cfg.conditioned then some (fw.text_encoder inp.captions).2 else st.sent_emb := by
  unfold encodeAndFlags
  split <;> rfl

theorem dPhase_fst (cfg : TrainConfig) (fw : Framework) (st : TrainState) (inp : IterInput)
    (se : Tensor) :
    ∃ a : ℚ,
      (dPhase cfg fw st inp se).1 =
        { st with disc := { st.disc with params := optimStep st.dKeys inp.dUpd st.disc.params },
                  ada_aug_p := a } := by
  unfold dPhase
  split
  · exact ⟨_, rfl⟩
  · exact ⟨st.ada_aug_p, rfl⟩

theorem dPhase_snd (cfg : TrainConfig) (fw : Framework) (st : TrainState) (inp : IterInput)
    (se : Tensor) :
    (dPhase cfg fw st inp se).2 =
      [Event.backwardD (dRealOut cfg fw st inp se).1 (dFakeOut cfg fw st inp se).1
         (dFakeOut cfg fw st inp se).2 (dRealOut cfg fw st inp se).2
         (dLossVal cfg fw st inp se) (flagsOf st.gen) (flagsOf st.disc),
       Event.stepD (flagsOf st.gen) (flagsOf st.disc)] := rfl

theorem dRegPhase_reg (cfg : TrainConfig) (fw : Framework) (i : Nat) (st : TrainState)
    (inp : IterInput) (se : Tensor) (h : i % cfg.d_reg_every = 0) :
    dRegPhase cfg fw i st inp se =
      ({ st with r1_loss := regR1Val cfg fw st inp se,
                 disc := { st.disc with params := optimStep st.dKeys inp.dUpdReg st.disc.params } },
       [Event.r1Reg (regRealPred cfg fw st inp se) (regR1Val cfg fw st inp se)
          (regBackLoss cfg fw st inp se),
        Event.stepDReg (flagsOf st.gen) (flagsOf st.disc)]) := by
  simp [dRegPhase, h]

theorem dRegPhase_not (cfg : TrainConfig) (fw : Framework) (i : Nat) (st : TrainState)
    (inp : IterInput) (se : Tensor) (h : ¬ i % cfg.d_reg_every = 0) :
    dRegPhase cfg fw i st inp se = (st, []) := by
  simp [dRegPhase, h]

theorem gPhase_fst (cfg : TrainConfig) (fw : Framework) (st0 : TrainState) (inp : IterInput)
    (se : Tensor) :
    (gPhase cfg fw st0 inp se).1 =
      { st0 with
          gen := { (requires_grad st0.gen true) with
                     params := optimStep st0.gKeys inp.gUpd (requires_grad st0.gen true).params },
          disc := requires_grad st0.disc false } := rfl

theorem gPhase_snd (cfg : TrainConfig) (fw : Framework) (st0 : TrainState) (inp : IterInput)
    (se : Tensor) :
    (gPhase cfg fw st0 inp se).2 =
      (let st : TrainState :=
         { st0 with gen := requires_grad st0.gen true, disc := requires_grad st0.disc false }
       [Event.backwardG (gFakeImg cfg fw st inp se) (gFakePred cfg fw st inp se) se
          (gLossVal cfg fw st inp se) (flagsOf st.gen) (flagsOf st.disc),
        Event.stepG (flagsOf st.gen) (flagsOf st.disc)]) := rfl

theorem emaPhase_elim {cfg : TrainConfig} {st st5 : TrainState}
    (h : emaPhase cfg st = some st5) :
    accumulate st.gEma.params st.gen.params cfg.accum = some st5.gEma.params ∧
    st5.gen = st.gen ∧ st5.disc = st.disc ∧ st5.textEnc = st.textEnc ∧
    st5.imageEnc = st.imageEnc ∧ st5.r1_loss = st.r1_loss ∧
    st5.ada_aug_p = st.ada_aug_p ∧ st5.gKeys = st.gKeys ∧ st5.dKeys = st.dKeys ∧
    st5.sample_z = st.sample_z ∧ st5.sample_sent_emb = st.sample_sent_emb := by
  unfold emaPhase at h
  rcases hacc : accumulate st.gEma.params st.gen.params cfg.accum with _ | ps
  · rw [hacc] at h
    simp at h
  · rw [hacc] at h
    simp only [Option.map_some', Option.some.injEq] at h
    subst h
    simp

/-- What a successful logging/saving phase does: it can change only the
`g_ema` mode flag, and its trace holds exactly the writes of lines 423-450,
all of them behind `get_rank() == 0`. -/
theorem samplePhase_ok_elim {cfg : TrainConfig} {fw : Framework} {i : Nat}
    {st : TrainState} {r : TrainState × List Event}
    (h : samplePhase cfg fw i st = .ok r) :
    r.1.gen = st.gen ∧ r.1.disc = st.disc ∧ r.1.textEnc = st.textEnc ∧
    r.1.imageEnc = st.imageEnc ∧ r.1.r1_loss = st.r1_loss ∧
    r.1.ada_aug_p = st.ada_aug_p ∧ r.1.gKeys = st.gKeys ∧ r.1.dKeys = st.dKeys ∧
    r.1.sample_z = st.sample_z ∧ r.1.sample_sent_emb = st.sample_sent_emb ∧
    r.1.gEma.params = st.gEma.params ∧
    writesOf r.2 =
      ((if cfg.rank = 0 ∧ i % 100 = 0 then [FileWrite.png (samplePath i)] else []) ++
       (if cfg.rank = 0 ∧ i % 10000 = 0 then [FileWrite.pt (ckptPath i) ckptKeys] else [])) ∧
    (∀ e ∈ r.2, (∃ p img, e = Event.saveImage p img) ∨ ∃ p ks, e = Event.saveCkpt p ks) := by
  unfold samplePhase at h
  by_cases hr : cfg.rank = 0
  · rw [if_pos hr] at h
    by_cases h100 : i % 100 = 0
    · simp only [if_pos h100] at h
      rcases henc : (if cfg.conditioned then
          ((force st.sample_sent_emb).map fun sse => st.sample_z ++ sse)
        else Except.ok st.sample_z) with e | enc
      · rw [henc] at h
        simp [Except.map] at h
      · rw [henc] at h
        simp only [Except.map, Except.ok.injEq] at h
        subst h
        refine ⟨rfl, rfl, rfl, rfl, rfl, rfl, rfl, rfl, rfl, rfl, rfl, ?_, ?_⟩
        · by_cases h10 : i % 10000 = 0 <;>
            simp [writesOf, hr, h100, h10, List.filterMap_append]
        · intro e he
          by_cases h10 : i % 10000 = 0
          · simp only [if_pos h10] at he
            rcases List.mem_append.mp he with h1 | h1
            · simp only [List.mem_singleton] at h1
              exact Or.inl ⟨_, _, h1⟩
            · simp only [List.mem_singleton] at h1
              exact Or.inr ⟨_, _, h1⟩
          · simp only [if_neg h10, List.append_nil] at he
            simp only [List.mem_singleton] at he
            exact Or.inl ⟨_, _, he⟩
    · simp only [if_neg h100] at h
      simp only [Except.map, Except.ok.injEq] at h
      subst h
      refine ⟨rfl, rfl, rfl, rfl, rfl, rfl, rfl, rfl, rfl, rfl, rfl, ?_, ?_⟩
      · by_cases h10 : i % 10000 = 0 <;>
          simp [writesOf, hr, h100, h10]
      · intro e he
        by_cases h10 : i % 10000 = 0
        · simp only [if_pos h10, List.nil_append, List.mem_singleton] at he
          exact Or.inr ⟨_, _, he⟩
        · simp [if_neg h10] at he
  · rw [if_neg hr] at h
    simp only [Except.ok.injEq] at h
    subst h
    refine ⟨rfl, rfl, rfl, rfl, rfl, rfl, rfl, rfl, rfl, rfl, rfl, ?_, by simp⟩
    simp [writesOf, hr]

/-- Inversion of a successful loop body into its phases (in source order:
text encoding and flag assignments, discriminator update, R1 regularization,
generator update, EMA accumulation, rank-0 logging and saving). -/
theorem trainStep_ok_elim {cfg : TrainConfig} {fw : Framework} {i : Nat}
    {st : TrainState} {inp : IterInput} {st' : TrainState} {evs : List Event}
    (h : trainStep cfg fw i st inp = .ok (st', evs)) :
    ∃ se st5 r,
      (encodeAndFlags cfg fw st inp).sent_emb = some se ∧
      emaPhase cfg (gPhase cfg fw (dRegPhase cfg fw i
        (dPhase cfg fw (encodeAndFlags cfg fw st inp) inp se).1 inp se).1 inp se).1
        = some st5 ∧
      samplePhase cfg fw i st5 = .ok r ∧
      st' = r.1 ∧
      evs = (dPhase cfg fw (encodeAndFlags cfg fw st inp) inp se).2
        ++ (dRegPhase cfg fw i (dPhase cfg fw (encodeAndFlags cfg fw st inp) inp se).1 inp se).2
        ++ (gPhase cfg fw (dRegPhase cfg fw i
              (dPhase cfg fw (encodeAndFlags cfg fw st inp) inp se).1 inp se).1 inp se).2
        ++ r.2 := by
  simp only [trainStep] at h
  split at h
  · exact absurd h (by simp)
  · rename_i se hse
    split at h
    · exact absurd h (by simp)
    · rename_i st5 hema
      split at h
      · exact absurd h (by simp)
      · rename_i r hsp
        simp only [Except.ok.injEq, Prod.mk.injEq] at h
        exact ⟨se, st5, r, hse, hema, hsp, h.1.symm, h.2.symm⟩

/-- A completed loop body never touches the text encoder, the image encoder,
the optimizer registrations or the sampling latents. -/
theorem trainStep_preserves {cfg : TrainConfig} {fw : Framework} {i : Nat}
    {st : TrainState} {inp : IterInput} {st' : TrainState} {evs : List Event}
    (h : trainStep cfg fw i st inp = .ok (st', evs)) :
    st'.textEnc = st.textEnc ∧ st'.imageEnc = st.imageEnc ∧
    st'.gKeys = st.gKeys ∧ st'.dKeys = st.dKeys ∧
    st'.sample_z = st.sample_z ∧ st'.sample_sent_emb = st.sample_sent_emb := by
  obtain ⟨se, st5, r, hse, hema, hsp, hst', hevs⟩ := trainStep_ok_elim h
  obtain ⟨S, W, h1⟩ := encodeAndFlags_eq cfg fw st inp
  obtain ⟨a, h2⟩ := dPhase_fst cfg fw (encodeAndFlags cfg fw st inp) inp se
  have hsample := samplePhase_ok_elim hsp
  have hEma := emaPhase_elim hema
  subst hst'
  by_cases hreg : i % cfg.d_reg_every = 0
  · rw [dRegPhase_reg cfg fw i _ inp se hreg] at hEma
    rw [gPhase_fst] at hEma
    refine ⟨?_, ?_, ?_, ?_, ?_, ?_⟩ <;>
      simp_all [h1, h2]
  · rw [dRegPhase_not cfg fw i _ inp se hreg] at hEma
    rw [gPhase_fst] at hEma
    refine ⟨?_, ?_, ?_, ?_, ?_, ?_⟩ <;>
      simp_all [h1, h2]

theorem writesOf_append (a b : List Event) :
    writesOf (a ++ b) = writesOf a ++ writesOf b :=
  List.filterMap_append a b _

theorem r1Events_append (a b : List Event) :
    r1Events (a ++ b) = r1Events a ++ r1Events b :=
  List.filterMap_append a b _

theorem stepDRegCount_append (a b : List Event) :
    stepDRegCount (a ++ b) = stepDRegCount a + stepDRegCount b := by
  simp [stepDRegCount, List.filter_append]

theorem r1Events_of_saves {evs : List Event}
    (h : ∀ e ∈ evs, (∃ p img, e = Event.saveImage p img) ∨ ∃ p ks, e = Event.saveCkpt p ks) :
    r1Events evs = [] := by
  induction evs with
  | nil => rfl
  | cons e t ih =>
    rcases h e (by simp) with ⟨p, img, rfl⟩ | ⟨p, ks, rfl⟩ <;>
      simp [r1Events, List.filterMap_cons] at ih ⊢ <;>
      exact ih fun x hx => h x (by simp [hx])

theorem stepDRegCount_of_saves {evs : List Event}
    (h : ∀ e ∈ evs, (∃ p img, e = Event.saveImage p img) ∨ ∃ p ks, e = Event.saveCkpt p ks) :
    stepDRegCount evs = 0 := by
  induction evs with
  | nil => rfl
  | cons e t ih =>
    rcases h e (by simp) with ⟨p, img, rfl⟩ | ⟨p, ks, rfl⟩ <;>
      simp [stepDRegCount, List.filter_cons] at ih ⊢ <;>
      exact ih fun x hx => h x (by simp [hx])

/-! ### Claim theorems -/

theorem accumulate_lookup (par2 : List Param) (decay : ℚ) (par1 : List Param)
    (hcov : ∀ p ∈ par1, (lookupData par2 p.name).isSome) :
    ∃ par1', accumulate par1 par2 decay = some par1' ∧
      ∀ k v1 v2, lookupData par1 k = some v1 → lookupData par2 k = some v2 →
        lookupData par1' k = some (decay * v1 + (1 - decay) * v2) := by
  induction par1 with
  | nil =>
    refine ⟨[], rfl, ?_⟩
    intro k v1 v2 h1 _
    simp [lookupData] at h1
  | cons p rest ih =>
    obtain ⟨v2p, hv2p⟩ := Option.isSome_iff_exists.mp (hcov p (by simp))
    obtain ⟨rest', hacc, hform⟩ := ih fun q hq => hcov q (by simp [hq])
    refine ⟨{ p with data := decay * p.data + (1 - decay) * v2p } :: rest', ?_, ?_⟩
    · simp only [accumulate, hv2p, hacc]
    · intro k v1 v2 h1 h2
      by_cases hk : p.name = k
      · subst hk
        rw [hv2p] at h2
        simp only [Option.some.injEq] at h2
        subst h2
        simp only [lookupData, if_pos] at h1
        simp at h1
        subst h1
        simp [lookupData]
      · simp only [lookupData, if_neg hk] at h1
        simp only [lookupData]
        rw [if_neg hk]
        exact hform k v1 v2 h1 h2

/-- C3: for every parameter name shared by the two modules, `accumulate`
performs `par1[k] ← decay * par1[k] + (1 - decay) * par2[k]`; at `decay = 0`
(the startup call `accumulate(g_ema, generator, 0)` of line 607) the EMA
parameter becomes exactly the generator parameter; and the per-iteration EMA
update of line 386 is exactly this `accumulate` at the configured decay
`accum = 0.5 ** (32 / (10 * 1000))`. -/
theorem c3_ema_accumulate (par1 par2 : List Param) (decay : ℚ)
    (hcov : ∀ p ∈ par1, (lookupData par2 p.name).isSome) :
    (∃ par1', accumulate par1 par2 decay = some par1' ∧
       ∀ k v1 v2, lookupData par1 k = some v1 → lookupData par2 k = some v2 →
         lookupData par1' k = some (decay * v1 + (1 - decay) * v2)) ∧
    (∃ par1', accumulate par1 par2 0 = some par1' ∧
       ∀ k v1 v2, lookupData par1 k = some v1 → lookupData par2 k = some v2 →
         lookupData par1' k = some v2) ∧
    (∀ cfg st st5, emaPhase cfg st = some st5 →
       accumulate st.gEma.params st.gen.params cfg.accum = some st5.gEma.params) := by
  refine ⟨accumulate_lookup par2 decay par1 hcov, ?_, ?_⟩
  · obtain ⟨par1', hacc, hform⟩ := accumulate_lookup par2 0 par1 hcov
    refine ⟨par1', hacc, ?_⟩
    intro k v1 v2 h1 h2
    simpa using hform k v1 v2 h1 h2
  · intro cfg st st5 hem
    exact (emaPhase_elim hem).1

theorem c3_ema_accumulate_witness :
    ∃ par1',
      accumulate [({ name := "w", data := 4, requires_grad := false } : Param)]
          [({ name := "w", data := 2, requires_grad := true } : Param)] 0 = some par1' ∧
      ∀ k v1 v2,
        lookupData [({ name := "w", data := 4, requires_grad := false } : Param)] k = some v1 →
        lookupData [({ name := "w", data := 2, requires_grad := true } : Param)] k = some v2 →
        lookupData par1' k = some v2 :=
  (c3_ema_accumulate
    [({ name := "w", data := 4, requires_grad := false } : Param)]
    [({ name := "w", data := 2, requires_grad := true } : Param)] 0 (by decide)).2.1

theorem takeWhile_all {α : Type} (p : α → Bool) (l : List α) (h : ∀ x ∈ l, p x = true) :
    l.takeWhile p = l := by
  induction l with
  | nil => rfl
  | cons a t ih =>
    have ha := h a (by simp)
    simp [List.takeWhile_cons, ha, ih fun x hx => h x (by simp [hx])]

/-- The break of lines 217-220 truncates the loop exactly like a `takeWhile`:
`trainLoop` (with its break) is the plain body composition `trainSteps` over
the indices whose counter passes the break check.  Once one index fails, the
loop returns immediately and no later body runs. -/
theorem trainLoop_eq_trainSteps (cfg : TrainConfig) (fw : Framework)
    (inputs : Nat → IterInput) :
    ∀ (idxs : List Nat) (st : TrainState),
      trainLoop cfg fw inputs idxs st =
        trainSteps cfg fw inputs
          (idxs.takeWhile fun idx => decide (idx + cfg.start_iter ≤ cfg.iter)) st := by
  intro idxs
  induction idxs with
  | nil =>
    intro st
    rfl
  | cons idx rest ih =>
    intro st
    by_cases hlt : cfg.iter < idx + cfg.start_iter
    · have hp : decide (idx + cfg.start_iter ≤ cfg.iter) = false := by
        simp [Nat.not_le_of_lt hlt]
      simp [trainLoop, if_pos hlt, List.takeWhile_cons, hp, trainSteps]
    · have hle : idx + cfg.start_iter ≤ cfg.iter := Nat.le_of_not_lt hlt
      have hp : decide (idx + cfg.start_iter ≤ cfg.iter) = true := by
        simp [hle]
      simp only [trainLoop, if_neg hlt, List.takeWhile_cons, hp, if_true, trainSteps]
      cases htr : trainStep cfg fw (idx + cfg.start_iter) st (inputs idx) with
      | error e => rfl
      | ok r => simp only [ih r.1]

/-- Shifting the counters commutes with the break truncation: the counters of
the indices that survive the break are exactly `trainIndices`. -/
theorem takeWhile_map_shift (start iter : Nat) :
    ∀ l : List Nat,
      ((l.takeWhile fun idx => decide (idx + start ≤ iter)).map fun idx => idx + start)
        = (l.map fun idx => idx + start).takeWhile fun i => decide (i ≤ iter)
  | [] => rfl
  | a :: t => by
    by_cases h : a + start ≤ iter
    · simp [List.takeWhile_cons, h, takeWhile_map_shift start iter t]
    · simp [List.takeWhile_cons, h]

/-- C8: the loop runs over `range(args.iter)` with `i = idx + args.start_iter`
and breaks before doing any work as soon as `i > args.iter`.  Concretely:
`trainRun` equals the plain body composition `trainSteps` over the indices
surviving the break (conjunct 1), and the counters of those executed bodies
are exactly `trainIndices` (conjunct 2); hence with `start_iter = 0` the
executed counters are exactly `range(args.iter)` — `args.iter` bodies at
`i = 0 .. args.iter - 1` (conjunct 3) — and for every `start_iter` no body
runs with `i > args.iter` (conjunct 4); breaking does no work (conjunct 5). -/
theorem c8_iteration_bookkeeping (cfg : TrainConfig) (fw : Framework)
    (inputs : Nat → IterInput) :
    (∀ st, trainRun cfg fw inputs st =
       trainSteps cfg fw inputs
         ((List.range cfg.iter).takeWhile
           fun idx => decide (idx + cfg.start_iter ≤ cfg.iter)) st) ∧
    (((List.range cfg.iter).takeWhile
         (fun idx => decide (idx + cfg.start_iter ≤ cfg.iter))).map
        (fun idx => idx + cfg.start_iter) = trainIndices cfg.iter cfg.start_iter) ∧
    (cfg.start_iter = 0 →
       trainIndices cfg.iter cfg.start_iter = List.range cfg.iter ∧
       (trainIndices cfg.iter cfg.start_iter).length = cfg.iter) ∧
    (∀ i ∈ trainIndices cfg.iter cfg.start_iter, i ≤ cfg.iter) ∧
    (∀ st idx rest, cfg.iter < idx + cfg.start_iter →
       trainLoop cfg fw inputs (idx :: rest) st = .ok (st, [])) := by
  have hrange : ∀ iter : Nat, trainIndices iter 0 = List.range iter := by
    intro iter
    unfold trainIndices
    have hm : (List.range iter).map (fun idx => idx + 0) = List.range iter := by simp
    rw [hm]
    apply takeWhile_all
    intro x hx
    simp only [List.mem_range] at hx
    simp [Nat.le_of_lt hx]
  refine ⟨?_, ?_, ?_, ?_, ?_⟩
  · intro st
    exact trainLoop_eq_trainSteps cfg fw inputs (List.range cfg.iter) st
  · rw [trainIndices]
    exact takeWhile_map_shift cfg.start_iter cfg.iter (List.range cfg.iter)
  · intro hs
    rw [hs]
    exact ⟨hrange cfg.iter, by rw [hrange cfg.iter]; simp⟩
  · intro i hi
    have := List.mem_takeWhile_imp hi
    simpa using this
  · intro st idx rest hlt
    simp [trainLoop, hlt]

/-- A trivial framework instance, used only to instantiate witnesses. -/
def fwW : Framework where
  softplus := fun _ => 1
  bce := fun _ _ => 0
  text_encoder := fun _ => ([0], [0])
  generator := fun _ _ => [0]
  discriminator := fun _ _ _ => ([0], [0])
  image_encoder := fun _ _ => ([0], [0])
  sent_lossF := fun _ _ _ _ _ => (0, 0)
  augmentF := fun t _ => t
  adaTune := fun _ p => p
  gradOracle := fun _ _ => [[0]]

/-- A concrete configuration (conditioned, rank 0), used only for witnesses. -/
def cfgW : TrainConfig where
  iter := 10
  start_iter := 0
  d_reg_every := 16
  r1 := 10
  augment := false
  augment_p := 0
  rank := 0
  conditioned := true
  batchSize := 1
  lambda := 1
  accum := 0

/-- `cfgW` with `conditioned := False`. -/
def cfgW2 : TrainConfig := { cfgW with conditioned := false }

/-- A one-parameter module, used only for witnesses. -/
def netW (nm : String) (v : ℚ) (rg : Bool) : NetState :=
  { params := [{ name := nm, data := v, requires_grad := rg }], training := true }

/-- A concrete per-iteration input, used only for witnesses. -/
def inpW : IterInput where
  real_img := [0]
  captions := [0]
  batch := 1
  class_ids := [0]
  noiseD := [[0]]
  noiseG := [[0]]
  dUpd := fun _ v => v
  dUpdReg := fun _ v => v
  gUpd := fun _ v => v

theorem c8_iteration_bookkeeping_witness :
    (2 ∈ trainIndices cfgW.iter cfgW.start_iter ∧ 2 ≤ cfgW.iter) ∧
    (cfgW.start_iter = 0 ∧
      trainIndices cfgW.iter cfgW.start_iter = List.range cfgW.iter ∧
      (trainIndices cfgW.iter cfgW.start_iter).length = cfgW.iter) ∧
    (trainRun cfgW fwW (fun _ => inpW) default =
      trainSteps cfgW fwW (fun _ => inpW)
        ((List.range cfgW.iter).takeWhile
          fun idx => decide (idx + cfgW.start_iter ≤ cfgW.iter)) default) ∧
    (cfgW.iter < 11 + cfgW.start_iter ∧
      trainLoop cfgW fwW (fun _ => inpW) (11 :: [12]) default = .ok (default, [])) := by
  obtain ⟨h1, h2, h3, h4, h5⟩ := c8_iteration_bookkeeping cfgW fwW (fun _ => inpW)
  obtain ⟨h3a, h3b⟩ := h3 (by decide)
  exact ⟨⟨by decide, h4 2 (by decide)⟩, ⟨by decide, h3a, h3b⟩, h1 default,
    by decide, h5 default 11 [12] (by decide)⟩

/-- C9 counterexample: the script does catch and convert exceptions — the
wandb import guard of lines 26-30 turns `ImportError` into `wandb = None`,
and the checkpoint-name guard of lines 683-688 swallows the `ValueError`
raised by `int("best")`, keeping the previous `start_iter`. -/
theorem c9_error_handling_counterexample :
    wandbGuard (Except.error PyErr.importError : Except PyErr Nat) = .ok none ∧
    wandbGuard (Except.error PyErr.importError : Except PyErr Nat)
      ≠ .error PyErr.importError ∧
    pyInt? (splitextStem (basename "best.pt")) = none ∧
    startIterFromCkpt 7 "best.pt" = .ok 7 ∧
    startIterFromCkpt 7 "best.pt" ≠ .error PyErr.valueError := by
  have h1 : pyInt? (splitextStem (basename "best.pt")) = none := by decide
  have h2 : startIterFromCkpt 7 "best.pt" = .ok 7 := by
    simp [startIterFromCkpt, h1]
  refine ⟨rfl, fun h => Except.noConfusion h, h1, h2, fun h => ?_⟩
  rw [h2] at h
  exact Except.noConfusion h

/-- C9 (amended): the script's only exception handling is the wandb import
guard (`ImportError` caught, leaving `wandb = None`; everything else
propagates) and the checkpoint-name guard (the `int(...)` parse always
yields `ok`: the parsed number on success, the previous `start_iter` on
`ValueError`). -/
theorem c9_error_handling_amended {W : Type} (imp : Except PyErr W) (prev : Nat)
    (ckpt : String) :
    (imp = .error .importError → wandbGuard imp = .ok none) ∧
    (∀ w, imp = .ok w → wandbGuard imp = .ok (some w)) ∧
    (∀ e, e ≠ PyErr.importError → imp = .error e → wandbGuard imp = .error e) ∧
    (∃ v, startIterFromCkpt prev ckpt = .ok v ∧
       (pyInt? (splitextStem (basename ckpt)) = some v ∨
        (pyInt? (splitextStem (basename ckpt)) = none ∧ v = prev))) := by
  refine ⟨?_, ?_, ?_, ?_⟩
  · intro h; subst h; rfl
  · intro w h; subst h; rfl
  · intro e he h
    subst h
    cases e with
    | importError => exact absurd rfl he
    | nameError => rfl
    | keyError => rfl
    | valueError => rfl
  · rcases hp : pyInt? (splitextStem (basename ckpt)) with _ | n
    · exact ⟨prev, by simp [startIterFromCkpt, hp], Or.inr ⟨rfl, rfl⟩⟩
    · exact ⟨n, by simp [startIterFromCkpt, hp], Or.inl rfl⟩

theorem c9_error_handling_amended_witness :
    (Except.error PyErr.importError : Except PyErr Nat) = .error .importError ∧
    wandbGuard (Except.error PyErr.importError : Except PyErr Nat) = .ok none ∧
    ∃ v, startIterFromCkpt 0 "000100.pt" = .ok v ∧
      (pyInt? (splitextStem (basename "000100.pt")) = some v ∨
       (pyInt? (splitextStem (basename "000100.pt")) = none ∧ v = 0)) := by
  refine ⟨rfl, ?_, ?_⟩
  · exact (c9_error_handling_amended (Except.error PyErr.importError : Except PyErr Nat)
      0 "000100.pt").1 rfl
  · exact (c9_error_handling_amended (Except.error PyErr.importError : Except PyErr Nat)
      0 "000100.pt").2.2.2

/-- C1 counterexample: Python's conditional expression binds looser than `+`,
so the `d_loss` of lines 275-279 with `conditioned` false is the constant 0,
not the logistic loss alone; at predictions `[0]` and softplus values 1 the
logistic loss is 2 ≠ 0. -/
theorem c1_d_loss_counterexample :
    d_loss_expr false (fun _ => (1 : ℚ)) (fun _ _ => 0) [0] [0] [0] [0] [1] [0] = 0 ∧
    d_logistic_loss (fun _ => (1 : ℚ)) [0] [0] = 2 ∧
    (2 : ℚ) ≠ 0 := by
  refine ⟨rfl, ?_, by norm_num⟩
  norm_num [d_logistic_loss, mean]

/-- The concrete initial state for witnesses: `trainInit` over one-parameter
modules. -/
def stW : TrainState :=
  trainInit cfgW fwW (netW "g.w" 1 true) (netW "d.w" 1 true) (netW "g.w" 0 false)
    (netW "te.w" 5 false) (netW "ie.w" 7 false) ["g.w"] ["d.w"] [0] [0]

/-- The state a concrete first iteration (`i = 0`) produces. -/
def runWS : TrainState := ((trainStep cfgW fwW 0 stW inpW).toOption.getD default).1

/-- The trace a concrete first iteration (`i = 0`) produces. -/
def runWE : List Event := ((trainStep cfgW fwW 0 stW inpW).toOption.getD default).2

theorem runW_eq : trainStep cfgW fwW 0 stW inpW = .ok (runWS, runWE) := rfl

/-- C2: when `train` is called with `conditioned=False`, both assignments to
the local `sent_emb` are skipped, so the unguarded
`discriminator(fake_img, sent_emb)` of line 273 raises `NameError`
(`UnboundLocalError`) in the very first loop body. -/
theorem c2_unconditioned_name_error (cfg : TrainConfig) (fw : Framework) (i : Nat)
    (gen disc gEma tE iE : NetState) (gK dK : List String) (sz sc : Tensor)
    (inp : IterInput) (hc : cfg.conditioned = false) :
    trainStep cfg fw i (trainInit cfg fw gen disc gEma tE iE gK dK sz sc) inp
      = .error .nameError := by
  have hse : (encodeAndFlags cfg fw
      (trainInit cfg fw gen disc gEma tE iE gK dK sz sc) inp).sent_emb = none := by
    rw [encodeAndFlags_sent_emb, hc]
    simp [trainInit]
  simp only [trainStep, hse]

theorem c2_unconditioned_name_error_witness :
    cfgW2.conditioned = false ∧
    trainStep cfgW2 fwW 0 (trainInit cfgW2 fwW (netW "g.w" 1 true) (netW "d.w" 1 true)
        (netW "g.w" 0 false) (netW "te.w" 5 false) (netW "ie.w" 7 false)
        ["g.w"] ["d.w"] [0] [0]) inpW = .error .nameError :=
  ⟨rfl, c2_unconditioned_name_error cfgW2 fwW 0 (netW "g.w" 1 true) (netW "d.w" 1 true)
    (netW "g.w" 0 false) (netW "te.w" 5 false) (netW "ie.w" 7 false)
    ["g.w"] ["d.w"] [0] [0] inpW rfl⟩

/-- C7: only the rank-0 process writes files; a completed iteration writes
exactly the sample grid `sample/<i zero-padded to 6>.png` when
`i % 100 == 0` and the checkpoint `checkpoint/<i zero-padded to 6>.pt` with
exactly the keys g, d, g_ema, g_optim, d_optim, args, ada_aug_p when
`i % 10000 == 0`, and nothing else. -/
theorem c7_rank0_writes {cfg : TrainConfig} {fw : Framework} {i : Nat}
    {st : TrainState} {inp : IterInput} {st' : TrainState} {evs : List Event}
    (h : trainStep cfg fw i st inp = .ok (st', evs)) :
    writesOf evs =
      (if cfg.rank = 0 ∧ i % 100 = 0
       then [FileWrite.png ("sample/" ++ zfill 6 (Nat.repr i) ++ ".png")] else []) ++
      (if cfg.rank = 0 ∧ i % 10000 = 0
       then [FileWrite.pt ("checkpoint/" ++ zfill 6 (Nat.repr i) ++ ".pt")
               ["g", "d", "g_ema", "g_optim", "d_optim", "args", "ada_aug_p"]] else []) := by
  obtain ⟨se, st5, r, hse, hema, hsp, hst', hevs⟩ := trainStep_ok_elim h
  obtain ⟨-, -, -, -, -, -, -, -, -, -, -, hW, -⟩ := samplePhase_ok_elim hsp
  subst hevs
  rw [writesOf_append, writesOf_append, writesOf_append]
  have h1 : writesOf (dPhase cfg fw (encodeAndFlags cfg fw st inp) inp se).2 = [] := by
    rw [dPhase_snd]
    rfl
  have h2 : writesOf (dRegPhase cfg fw i
      (dPhase cfg fw (encodeAndFlags cfg fw st inp) inp se).1 inp se).2 = [] := by
    by_cases hreg : i % cfg.d_reg_every = 0
    · rw [dRegPhase_reg _ _ _ _ _ _ hreg]
      rfl
    · rw [dRegPhase_not _ _ _ _ _ _ hreg]
      rfl
  have h3 : writesOf (gPhase cfg fw (dRegPhase cfg fw i
      (dPhase cfg fw (encodeAndFlags cfg fw st inp) inp se).1 inp se).1 inp se).2 = [] := by
    rw [gPhase_snd]
    rfl
  rw [h1, h2, h3, hW]
  simp [samplePath, ckptPath, ckptKeys]

theorem c7_rank0_writes_witness :
    writesOf runWE =
      (if cfgW.rank = 0 ∧ 0 % 100 = 0
       then [FileWrite.png ("sample/" ++ zfill 6 (Nat.repr 0) ++ ".png")] else []) ++
      (if cfgW.rank = 0 ∧ 0 % 10000 = 0
       then [FileWrite.pt ("checkpoint/" ++ zfill 6 (Nat.repr 0) ++ ".pt")
               ["g", "d", "g_ema", "g_optim", "d_optim", "args", "ada_aug_p"]] else []) :=
  c7_rank0_writes runW_eq

/-- C4: the R1 penalty runs exactly on iterations with
`i % args.d_reg_every == 0`; there, one extra discriminator optimizer step
backpropagates `args.r1 / 2 * r1_loss * args.d_reg_every + 0 * real_pred[0]`
with `r1_loss` the `d_r1_loss` of the gradients of `real_pred.sum()` with
respect to `real_img`; on every other iteration no second discriminator step
runs and `r1_loss` keeps its previous value (initially 0, line 165). -/
theorem c4_r1_schedule {cfg : TrainConfig} {fw : Framework} {i : Nat}
    {st : TrainState} {inp : IterInput} {st' : TrainState} {evs : List Event}
    (h : trainStep cfg fw i st inp = .ok (st', evs)) (hd : 0 < cfg.d_reg_every) :
    (i % cfg.d_reg_every = 0 →
       ∃ pred, st'.r1_loss = d_r1_loss (fw.gradOracle pred inp.real_img) ∧
         r1Events evs = [(pred, st'.r1_loss,
           cfg.r1 / 2 * st'.r1_loss * (cfg.d_reg_every : ℚ) + 0 * pred.headD 0)] ∧
         stepDRegCount evs = 1) ∧
    (¬ i % cfg.d_reg_every = 0 →
       st'.r1_loss = st.r1_loss ∧ r1Events evs = [] ∧ stepDRegCount evs = 0) ∧
    (∀ gen disc gEma tE iE gK dK sz sc,
       (trainInit cfg fw gen disc gEma tE iE gK dK sz sc).r1_loss = 0) := by
  obtain ⟨se, st5, r, hse, hema, hsp, hst', hevs⟩ := trainStep_ok_elim h
  obtain ⟨-, -, -, -, hr1, -, -, -, -, -, -, -, hSaves⟩ := samplePhase_ok_elim hsp
  set st1 := encodeAndFlags cfg fw st inp with hst1
  set st2 := (dPhase cfg fw st1 inp se).1 with hst2
  set st3 := (dRegPhase cfg fw i st2 inp se).1 with hst3
  set st4 := (gPhase cfg fw st3 inp se).1 with hst4
  obtain ⟨-, -, -, -, -, hr5, -, -, -, -, -⟩ := emaPhase_elim hema
  have hr4 : st4.r1_loss = st3.r1_loss := by
    rw [hst4, gPhase_fst]
  have hr2 : st2.r1_loss = st.r1_loss := by
    obtain ⟨a, hD⟩ := dPhase_fst cfg fw st1 inp se
    obtain ⟨S, W, hE⟩ := encodeAndFlags_eq cfg fw st inp
    rw [hst2, hD, hst1, hE]
  have hfold : st'.r1_loss = st3.r1_loss := by
    rw [hst', hr1, hr5, hr4]
  have hE1 : r1Events (dPhase cfg fw st1 inp se).2 = [] := by
    rw [dPhase_snd]
    rfl
  have hE3 : r1Events (gPhase cfg fw st3 inp se).2 = [] := by
    rw [gPhase_snd]
    rfl
  have hE4 : r1Events r.2 = [] := r1Events_of_saves hSaves
  have hC1 : stepDRegCount (dPhase cfg fw st1 inp se).2 = 0 := by
    rw [dPhase_snd]
    rfl
  have hC3 : stepDRegCount (gPhase cfg fw st3 inp se).2 = 0 := by
    rw [gPhase_snd]
    rfl
  have hC4 : stepDRegCount r.2 = 0 := stepDRegCount_of_saves hSaves
  refine ⟨?_, ?_, fun gen disc gEma tE iE gK dK sz sc => rfl⟩
  · intro hreg
    have h3eq := dRegPhase_reg cfg fw i st2 inp se hreg
    have hr3 : st3.r1_loss = regR1Val cfg fw st2 inp se := by
      rw [hst3, h3eq]
    refine ⟨regRealPred cfg fw st2 inp se, ?_, ?_, ?_⟩
    · rw [hfold, hr3]
      rfl
    · rw [hevs, r1Events_append, r1Events_append, r1Events_append,
          hE1, hE3, hE4, h3eq]
      rw [hfold, hr3]
      simp [r1Events, regBackLoss]
    · rw [hevs, stepDRegCount_append, stepDRegCount_append, stepDRegCount_append,
          hC1, hC3, hC4, h3eq]
      rfl
  · intro hreg
    have h3eq := dRegPhase_not cfg fw i st2 inp se hreg
    have hr3 : st3.r1_loss = st2.r1_loss := by
      rw [hst3, h3eq]
    refine ⟨?_, ?_, ?_⟩
    · rw [hfold, hr3, hr2]
    · rw [hevs, r1Events_append, r1Events_append, r1Events_append,
          hE1, hE3, hE4, h3eq]
      rfl
    · rw [hevs, stepDRegCount_append, stepDRegCount_append, stepDRegCount_append,
          hC1, hC3, hC4, h3eq]
      rfl

theorem c4_r1_schedule_witness :
    (0 % cfgW.d_reg_every = 0 →
       ∃ pred, runWS.r1_loss = d_r1_loss (fwW.gradOracle pred inpW.real_img) ∧
         r1Events runWE = [(pred, runWS.r1_loss,
           cfgW.r1 / 2 * runWS.r1_loss * (cfgW.d_reg_every : ℚ) + 0 * pred.headD 0)] ∧
         stepDRegCount runWE = 1) ∧
    (¬ 0 % cfgW.d_reg_every = 0 →
       runWS.r1_loss = stW.r1_loss ∧ r1Events runWE = [] ∧ stepDRegCount runWE = 0) ∧
    (∀ gen disc gEma tE iE gK dK sz sc,
       (trainInit cfgW fwW gen disc gEma tE iE gK dK sz sc).r1_loss = 0) :=
  c4_r1_schedule runW_eq (by decide)

/-- C5: in a completed iteration, every discriminator optimizer step (both
the main one and the R1 one) happens while every generator parameter has
`requires_grad == False` and every discriminator parameter has
`requires_grad == True`; the generator step happens with the two floods of
flags reversed; and an optimizer step can change only the parameters it
registered at construction. -/
theorem c5_alternating_updates {cfg : TrainConfig} {fw : Framework} {i : Nat}
    {st : TrainState} {inp : IterInput} {st' : TrainState} {evs : List Event}
    (h : trainStep cfg fw i st inp = .ok (st', evs)) :
    (∀ gf df, Event.stepD gf df ∈ evs → (∀ b ∈ gf, b = false) ∧ (∀ b ∈ df, b = true)) ∧
    (∀ gf df, Event.stepDReg gf df ∈ evs → (∀ b ∈ gf, b = false) ∧ (∀ b ∈ df, b = true)) ∧
    (∀ gf df, Event.stepG gf df ∈ evs → (∀ b ∈ gf, b = true) ∧ (∀ b ∈ df, b = false)) ∧
    (∀ keys upd ps p, p ∈ ps → p.name ∉ keys → p ∈ optimStep keys upd ps) := by
  obtain ⟨se, st5, r, hse, hema, hsp, hst', hevs⟩ := trainStep_ok_elim h
  obtain ⟨-, -, -, -, -, -, -, -, -, -, -, -, hSaves⟩ := samplePhase_ok_elim hsp
  set st1 := encodeAndFlags cfg fw st inp with hst1
  set st2 := (dPhase cfg fw st1 inp se).1 with hst2
  set st3 := (dRegPhase cfg fw i st2 inp se).1 with hst3
  obtain ⟨S, W, hE⟩ := encodeAndFlags_eq cfg fw st inp
  obtain ⟨a, hD⟩ := dPhase_fst cfg fw st1 inp se
  have hg1 : flagsOf st1.gen = List.replicate st.gen.params.length false := by
    rw [hst1, hE]
    exact flagsOf_requires_grad st.gen false
  have hd1 : flagsOf st1.disc = List.replicate st.disc.params.length true := by
    rw [hst1, hE]
    exact flagsOf_requires_grad st.disc true
  have hg2 : flagsOf st2.gen = List.replicate st.gen.params.length false := by
    rw [hst2, hD]
    exact hg1
  have hd2 : flagsOf st2.disc = List.replicate st.disc.params.length true := by
    rw [hst2, hD]
    show (optimStep st1.dKeys inp.dUpd st1.disc.params).map Param.requires_grad
      = List.replicate st.disc.params.length true
    rw [optimStep_flags]
    exact hd1
  have hmem : ∀ {e : Event}, e ∈ evs →
      e ∈ (dPhase cfg fw st1 inp se).2 ∨ e ∈ (dRegPhase cfg fw i st2 inp se).2 ∨
      e ∈ (gPhase cfg fw st3 inp se).2 ∨ e ∈ r.2 := by
    intro e he
    rw [hevs] at he
    simpa [List.mem_append, or_assoc] using he
  have hsave_no_step : ∀ {e : Event}, e ∈ r.2 →
      (∀ gf df, e ≠ Event.stepD gf df) ∧ (∀ gf df, e ≠ Event.stepDReg gf df) ∧
      (∀ gf df, e ≠ Event.stepG gf df) := by
    intro e he
    rcases hSaves e he with ⟨p, img, rfl⟩ | ⟨p, ks, rfl⟩ <;>
      exact ⟨fun _ _ h => Event.noConfusion h, fun _ _ h => Event.noConfusion h,
        fun _ _ h => Event.noConfusion h⟩
  refine ⟨?_, ?_, ?_, fun keys upd ps p hp hk => optimStep_not_mem keys upd ps p hp hk⟩
  · intro gf df hin
    rcases hmem hin with h1 | h2 | h3 | h4
    · rw [dPhase_snd] at h1
      simp only [List.mem_cons, List.mem_singleton, List.not_mem_nil, or_false] at h1
      rcases h1 with h1 | h1
      · exact absurd h1 (by simp)
      · have hgf : gf = flagsOf st1.gen := by
          injection h1
        have hdf : df = flagsOf st1.disc := by
          injection h1
        subst hgf hdf
        rw [hg1, hd1]
        exact ⟨fun b hb => List.eq_of_mem_replicate hb, fun b hb => List.eq_of_mem_replicate hb⟩
    · by_cases hreg : i % cfg.d_reg_every = 0
      · rw [dRegPhase_reg _ _ _ _ _ _ hreg] at h2
        simp at h2
      · rw [dRegPhase_not _ _ _ _ _ _ hreg] at h2
        simp at h2
    · rw [gPhase_snd] at h3
      simp at h3
    · exact absurd rfl ((hsave_no_step h4).1 gf df)
  · intro gf df hin
    rcases hmem hin with h1 | h2 | h3 | h4
    · rw [dPhase_snd] at h1
      simp at h1
    · by_cases hreg : i % cfg.d_reg_every = 0
      · rw [dRegPhase_reg _ _ _ _ _ _ hreg] at h2
        simp only [List.mem_cons, List.mem_singleton, List.not_mem_nil, or_false] at h2
        rcases h2 with h2 | h2
        · exact absurd h2 (by simp)
        · have hgf : gf = flagsOf st2.gen := by
            injection h2
          have hdf : df = flagsOf st2.disc := by
            injection h2
          subst hgf hdf
          rw [hg2, hd2]
          exact ⟨fun b hb => List.eq_of_mem_replicate hb, fun b hb => List.eq_of_mem_replicate hb⟩
      · rw [dRegPhase_not _ _ _ _ _ _ hreg] at h2
        simp at h2
    · rw [gPhase_snd] at h3
      simp at h3
    · exact absurd rfl ((hsave_no_step h4).2.1 gf df)
  · intro gf df hin
    rcases hmem hin with h1 | h2 | h3 | h4
    · rw [dPhase_snd] at h1
      simp at h1
    · by_cases hreg : i % cfg.d_reg_every = 0
      · rw [dRegPhase_reg _ _ _ _ _ _ hreg] at h2
        simp at h2
      · rw [dRegPhase_not _ _ _ _ _ _ hreg] at h2
        simp at h2
    · rw [gPhase_snd] at h3
      simp only [List.mem_cons, List.mem_singleton, List.not_mem_nil, or_false] at h3
      rcases h3 with h3 | h3
      · exact absurd h3 (by simp)
      · have hgf : gf = flagsOf (requires_grad st3.gen true) := by
          injection h3
        have hdf : df = flagsOf (requires_grad st3.disc false) := by
          injection h3
        subst hgf hdf
        rw [flagsOf_requires_grad, flagsOf_requires_grad]
        exact ⟨fun b hb => List.eq_of_mem_replicate hb, fun b hb => List.eq_of_mem_replicate hb⟩
    · exact absurd rfl ((hsave_no_step h4).2.2 gf df)

theorem c5_alternating_updates_witness :
    (∀ gf df, Event.stepD gf df ∈ runWE → (∀ b ∈ gf, b = false) ∧ (∀ b ∈ df, b = true)) ∧
    (∀ gf df, Event.stepDReg gf df ∈ runWE → (∀ b ∈ gf, b = false) ∧ (∀ b ∈ df, b = true)) ∧
    (∀ gf df, Event.stepG gf df ∈ runWE → (∀ b ∈ gf, b = true) ∧ (∀ b ∈ df, b = false)) ∧
    (∀ keys upd ps p, p ∈ ps → p.name ∉ keys → p ∈ optimStep keys upd ps) :=
  c5_alternating_updates runW_eq

/-- C6: every generator update backpropagates
`g_nonsaturating_loss(fake_pred) + (s_loss0 + s_loss1) * cfg.TRAIN.SMOOTH.LAMBDA`,
where `fake_pred` is the discriminator's prediction on the freshly generated
image and `(s_loss0, s_loss1)` is `sent_loss` of the image-encoder code of
that image against the sentence embedding; the semantic-alignment term is
added unconditionally, without any `conditioned` guard. -/
theorem c6_g_loss_composition {cfg : TrainConfig} {fw : Framework} {i : Nat}
    {st : TrainState} {inp : IterInput} {st' : TrainState} {evs : List Event}
    (h : trainStep cfg fw i st inp = .ok (st', evs)) :
    (∃ fi fp se0 gl gf df, Event.backwardG fi fp se0 gl gf df ∈ evs) ∧
    (∀ fi fp se0 gl gf df, Event.backwardG fi fp se0 gl gf df ∈ evs →
       fp = (fw.discriminator st'.disc.params fi se0).1 ∧
       gl = g_nonsaturating_loss fw.softplus fp
            + ((fw.sent_lossF ((fw.image_encoder st'.imageEnc.params fi).2) se0
                  (matchLabels cfg.batchSize) inp.class_ids cfg.batchSize).1
               + (fw.sent_lossF ((fw.image_encoder st'.imageEnc.params fi).2) se0
                  (matchLabels cfg.batchSize) inp.class_ids cfg.batchSize).2) * cfg.lambda) := by
  obtain ⟨se, st5, r, hse, hema, hsp, hst', hevs⟩ := trainStep_ok_elim h
  obtain ⟨-, hdsc, -, himg, -, -, -, -, -, -, -, -, hSaves⟩ := samplePhase_ok_elim hsp
  set st1 := encodeAndFlags cfg fw st inp with hst1
  set st2 := (dPhase cfg fw st1 inp se).1 with hst2
  set st3 := (dRegPhase cfg fw i st2 inp se).1 with hst3
  obtain ⟨-, -, hdsc5, -, himg5, -, -, -, -, -, -⟩ := emaPhase_elim hema
  set stG := { st3 with gen := requires_grad st3.gen true, disc := requires_grad st3.disc false } with hstG
  have hdisc' : st'.disc = stG.disc := by
    rw [hst', hdsc, hdsc5, gPhase_fst, hstG]
  have himg' : st'.imageEnc = stG.imageEnc := by
    rw [hst', himg, himg5, gPhase_fst, hstG]
  have hmemG : Event.backwardG (gFakeImg cfg fw stG inp se) (gFakePred cfg fw stG inp se)
      se (gLossVal cfg fw stG inp se) (flagsOf stG.gen) (flagsOf stG.disc)
      ∈ (gPhase cfg fw st3 inp se).2 := by
    rw [gPhase_snd]
    exact List.mem_cons_self _ _
  have hmem : ∀ {e : Event}, e ∈ evs →
      e ∈ (dPhase cfg fw st1 inp se).2 ∨ e ∈ (dRegPhase cfg fw i st2 inp se).2 ∨
      e ∈ (gPhase cfg fw st3 inp se).2 ∨ e ∈ r.2 := by
    intro e he
    rw [hevs] at he
    simpa [List.mem_append, or_assoc] using he
  constructor
  · exact ⟨gFakeImg cfg fw stG inp se, gFakePred cfg fw stG inp se, se,
      gLossVal cfg fw stG inp se, flagsOf stG.gen, flagsOf stG.disc, by
        rw [hevs]
        simp only [List.mem_append]
        exact Or.inl (Or.inr hmemG)⟩
  · intro fi fp se0 gl gf df hin
    rcases hmem hin with h1 | h2 | h3 | h4
    · rw [dPhase_snd] at h1
      simp at h1
    · by_cases hreg : i % cfg.d_reg_every = 0
      · rw [dRegPhase_reg _ _ _ _ _ _ hreg] at h2
        simp at h2
      · rw [dRegPhase_not _ _ _ _ _ _ hreg] at h2
        simp at h2
    · rw [gPhase_snd] at h3
      simp only [List.mem_cons, List.mem_singleton, List.not_mem_nil, or_false] at h3
      rcases h3 with h3 | h3
      · injection h3 with hfi hfp hse0 hgl hgf hdf
        subst hfi hfp hse0 hgl
        constructor
        · rw [hdisc']
          rfl
        · rw [himg']
          rfl
      · exact absurd h3 (by simp)
    · rcases hSaves _ h4 with ⟨p, img, heq⟩ | ⟨p, ks, heq⟩ <;> exact Event.noConfusion heq

theorem c6_g_loss_composition_witness :
    (∃ fi fp se0 gl gf df, Event.backwardG fi fp se0 gl gf df ∈ runWE) ∧
    (∀ fi fp se0 gl gf df, Event.backwardG fi fp se0 gl gf df ∈ runWE →
       fp = (fwW.discriminator runWS.disc.params fi se0).1 ∧
       gl = g_nonsaturating_loss fwW.softplus fp
            + ((fwW.sent_lossF ((fwW.image_encoder runWS.imageEnc.params fi).2) se0
                  (matchLabels cfgW.batchSize) inpW.class_ids cfgW.batchSize).1
               + (fwW.sent_lossF ((fwW.image_encoder runWS.imageEnc.params fi).2) se0
                  (matchLabels cfgW.batchSize) inpW.class_ids cfgW.batchSize).2) * cfgW.lambda) :=
  c6_g_loss_composition runW_eq

/-- C1 (amended): the discriminator loss backpropagated by a completed
iteration is `d_loss_expr` — when `conditioned` is true this is the logistic
loss plus the two BCE terms `BCE(fake_logits, fake_labels) +
BCE(real_logits, real_labels)`; when `conditioned` is false the expression
of lines 275-279 evaluates to the constant 0, not to the logistic loss
alone, because Python's conditional expression covers the whole sum. -/
theorem c1_d_loss_amended {cfg : TrainConfig} {fw : Framework} {i : Nat}
    {st : TrainState} {inp : IterInput} {st' : TrainState} {evs : List Event}
    (h : trainStep cfg fw i st inp = .ok (st', evs)) :
    (∃ rp fp fl rl dl gf df, Event.backwardD rp fp fl rl dl gf df ∈ evs) ∧
    (∀ rp fp fl rl dl gf df, Event.backwardD rp fp fl rl dl gf df ∈ evs →
       dl = d_loss_expr cfg.conditioned fw.softplus fw.bce rp fp fl rl
              (List.replicate inp.batch 1) (List.replicate inp.batch 0) ∧
       (cfg.conditioned = true →
          dl = d_logistic_loss fw.softplus rp fp
               + (fw.bce fl (List.replicate inp.batch 0)
                  + fw.bce rl (List.replicate inp.batch 1))) ∧
       (cfg.conditioned = false → dl = 0)) := by
  obtain ⟨se, st5, r, hse, hema, hsp, hst', hevs⟩ := trainStep_ok_elim h
  obtain ⟨-, -, -, -, -, -, -, -, -, -, -, -, hSaves⟩ := samplePhase_ok_elim hsp
  set st1 := encodeAndFlags cfg fw st inp with hst1
  set st2 := (dPhase cfg fw st1 inp se).1 with hst2
  set st3 := (dRegPhase cfg fw i st2 inp se).1 with hst3
  have hmemD : Event.backwardD (dRealOut cfg fw st1 inp se).1 (dFakeOut cfg fw st1 inp se).1
      (dFakeOut cfg fw st1 inp se).2 (dRealOut cfg fw st1 inp se).2
      (dLossVal cfg fw st1 inp se) (flagsOf st1.gen) (flagsOf st1.disc)
      ∈ (dPhase cfg fw st1 inp se).2 := by
    rw [dPhase_snd]
    exact List.mem_cons_self _ _
  have hmem : ∀ {e : Event}, e ∈ evs →
      e ∈ (dPhase cfg fw st1 inp se).2 ∨ e ∈ (dRegPhase cfg fw i st2 inp se).2 ∨
      e ∈ (gPhase cfg fw st3 inp se).2 ∨ e ∈ r.2 := by
    intro e he
    rw [hevs] at he
    simpa [List.mem_append, or_assoc] using he
  constructor
  · exact ⟨(dRealOut cfg fw st1 inp se).1, (dFakeOut cfg fw st1 inp se).1,
      (dFakeOut cfg fw st1 inp se).2, (dRealOut cfg fw st1 inp se).2,
      dLossVal cfg fw st1 inp se, flagsOf st1.gen, flagsOf st1.disc, by
        rw [hevs]
        simp only [List.mem_append]
        exact Or.inl (Or.inl (Or.inl hmemD))⟩
  · intro rp fp fl rl dl gf df hin
    rcases hmem hin with h1 | h2 | h3 | h4
    · rw [dPhase_snd] at h1
      simp only [List.mem_cons, List.mem_singleton, List.not_mem_nil, or_false] at h1
      rcases h1 with h1 | h1
      · injection h1 with hrp hfp hfl hrl hdl hgf hdf
        subst hrp hfp hfl hrl hdl
        refine ⟨rfl, ?_, ?_⟩
        · intro hc
          simp [dLossVal, d_loss_expr, hc]
        · intro hc
          simp [dLossVal, d_loss_expr, hc]
      · exact absurd h1 (by simp)
    · by_cases hreg : i % cfg.d_reg_every = 0
      · rw [dRegPhase_reg _ _ _ _ _ _ hreg] at h2
        simp at h2
      · rw [dRegPhase_not _ _ _ _ _ _ hreg] at h2
        simp at h2
    · rw [gPhase_snd] at h3
      simp at h3
    · rcases hSaves _ h4 with ⟨p, img, heq⟩ | ⟨p, ks, heq⟩ <;> exact Event.noConfusion heq

theorem c1_d_loss_amended_witness :
    (∃ rp fp fl rl dl gf df, Event.backwardD rp fp fl rl dl gf df ∈ runWE) ∧
    (∀ rp fp fl rl dl gf df, Event.backwardD rp fp fl rl dl gf df ∈ runWE →
       dl = d_loss_expr cfgW.conditioned fwW.softplus fwW.bce rp fp fl rl
              (List.replicate inpW.batch 1) (List.replicate inpW.batch 0) ∧
       (cfgW.conditioned = true →
          dl = d_logistic_loss fwW.softplus rp fp
               + (fwW.bce fl (List.replicate inpW.batch 0)
                  + fwW.bce rl (List.replicate inpW.batch 1))) ∧
       (cfgW.conditioned = false → dl = 0)) :=
  c1_d_loss_amended runW_eq

/-- C10: the `__main__` setup freezes both encoders (every parameter's
`requires_grad` set to False, eval mode) and registers only generator
parameters with `g_optim` and only discriminator parameters with `d_optim`;
consequently a completed training iteration leaves both encoders unchanged. -/
theorem c10_frozen_encoders {cfg : TrainConfig} {fw : Framework} {i : Nat}
    {st : TrainState} {inp : IterInput} {st' : TrainState} {evs : List Event}
    (h : trainStep cfg fw i st inp = .ok (st', evs)) (gen0 disc0 te0 ie0 : NetState) :
    (∀ p ∈ (mainSetup gen0 disc0 te0 ie0).text_enc.params, p.requires_grad = false) ∧
    (∀ p ∈ (mainSetup gen0 disc0 te0 ie0).image_enc.params, p.requires_grad = false) ∧
    (mainSetup gen0 disc0 te0 ie0).text_enc.training = false ∧
    (mainSetup gen0 disc0 te0 ie0).image_enc.training = false ∧
    (mainSetup gen0 disc0 te0 ie0).gKeys = gen0.params.map Param.name ∧
    (mainSetup gen0 disc0 te0 ie0).dKeys = disc0.params.map Param.name ∧
    st'.textEnc = st.textEnc ∧ st'.imageEnc = st.imageEnc := by
  obtain ⟨hT, hI, -, -, -, -⟩ := trainStep_preserves h
  refine ⟨?_, ?_, rfl, rfl, rfl, rfl, hT, hI⟩
  · intro p hp
    simp only [mainSetup, List.mem_map] at hp
    obtain ⟨q, -, rfl⟩ := hp
    rfl
  · intro p hp
    simp only [mainSetup, List.mem_map] at hp
    obtain ⟨q, -, rfl⟩ := hp
    rfl

theorem c10_frozen_encoders_witness :
    (∀ p ∈ (mainSetup (netW "g.w" 1 true) (netW "d.w" 1 true) (netW "te.w" 5 false)
        (netW "ie.w" 7 false)).text_enc.params, p.requires_grad = false) ∧
    (∀ p ∈ (mainSetup (netW "g.w" 1 true) (netW "d.w" 1 true) (netW "te.w" 5 false)
        (netW "ie.w" 7 false)).image_enc.params, p.requires_grad = false) ∧
    (mainSetup (netW "g.w" 1 true) (netW "d.w" 1 true) (netW "te.w" 5 false)
        (netW "ie.w" 7 false)).text_enc.training = false ∧
    (mainSetup (netW "g.w" 1 true) (netW "d.w" 1 true) (netW "te.w" 5 false)
        (netW "ie.w" 7 false)).image_enc.training = false ∧
    (mainSetup (netW "g.w" 1 true) (netW "d.w" 1 true) (netW "te.w" 5 false)
        (netW "ie.w" 7 false)).gKeys = (netW "g.w" 1 true).params.map Param.name ∧
    (mainSetup (netW "g.w" 1 true) (netW "d.w" 1 true) (netW "te.w" 5 false)
        (netW "ie.w" 7 false)).dKeys = (netW "d.w" 1 true).params.map Param.name ∧
    runWS.textEnc = stW.textEnc ∧ runWS.imageEnc = stW.imageEnc :=
  c10_frozen_encoders runW_eq (netW "g.w" 1 true) (netW "d.w" 1 true)
    (netW "te.w" 5 false) (netW "ie.w" 7 false)
